import Mathlib

/-!
Verification of the polar-plant EC dashboard (src/main.py) against its
natural-language specification.

The dashboard is a single script: a Unicode-normalizing file locator
(`find_file`), two dataset loaders (`load_environment_data`,
`load_growth_data`), a fixed school → target-EC map (`EC_MAP`), and an
overview computation that concatenates the per-school growth tables,
groups by the school column, takes the mean fresh weight per school,
and reports the EC of the school attaining the maximal mean.

Numeric cells are modelled as rationals (exact arithmetic in place of
float64).  `unicodedata.normalize("NFC", ·)` is modelled as an abstract
parameter `nfc : String → String`, since the locator only ever compares
normalized strings.  pandas `groupby` sorts its keys (the default
`sort=True`), and `Series.idxmax` returns the first index attaining the
maximum; both behaviours are embedded below.
-/

namespace PolarPlant

/-- Embeds `find_file` (src/main.py lines 33-38): scan the directory in
iteration order and return the first entry whose normalized name equals
the normalized target, else `none`.  `nfc` stands for
`unicodedata.normalize("NFC", ·)` from `normalize` (lines 30-31). -/
def find_file (nfc : String → String) (directory : List String) (target_name : String) : Option String :=
  directory.find? (fun f => nfc f = nfc target_name)

/-- One row of a per-school environment CSV (columns used by the code). -/
structure EnvRow where
  temperature : ℚ
  humidity : ℚ
  ph : ℚ
  ec : ℚ
deriving DecidableEq

/-- An environment row after the loader tags it with the school column
(`df["학교"] = school`, line 53). -/
structure TaggedEnvRow where
  temperature : ℚ
  humidity : ℚ
  ph : ℚ
  ec : ℚ
  school : String
deriving DecidableEq

def tagEnv (s : String) (r : EnvRow) : TaggedEnvRow :=
  { temperature := r.temperature, humidity := r.humidity, ph := r.ph, ec := r.ec, school := s }

/-- One row of a growth sheet (columns used by the code:
`생중량(g)` fresh weight, `잎 수(장)` leaf count, `지상부 길이(mm)` shoot
length, `개체번호` individual id). -/
structure GrowthRow where
  freshWeight : ℚ
  leafCount : ℚ
  shootLength : ℚ
  plantId : ℕ
deriving DecidableEq

/-- A growth row after the loader tags it with the school column
(`df["학교"] = sheet`, line 69). -/
structure TaggedGrowthRow where
  freshWeight : ℚ
  leafCount : ℚ
  shootLength : ℚ
  plantId : ℕ
  school : String
deriving DecidableEq

def tagGrowth (s : String) (r : GrowthRow) : TaggedGrowthRow :=
  { freshWeight := r.freshWeight, leafCount := r.leafCount, shootLength := r.shootLength,
    plantId := r.plantId, school := s }

/-- The data directory's contents: the entry names in iteration order,
the parsed CSV content of each entry, and the (sheet name, rows) list of
each spreadsheet entry. -/
structure FS where
  entries : List String
  read_csv : String → List EnvRow
  workbook : String → List (String × List GrowthRow)

/-- The fixed school list iterated by `load_environment_data` (line 47). -/
def SCHOOLS : List String := ["송도고", "하늘고", "아라고", "동산고"]

/-- The loop body of `load_environment_data` (lines 47-54): walk the
school list, locate `{school}_환경데이터.csv`, and on the first school whose
file is not found report the error message of line 50 (st.error) and fail
(`return None`); otherwise read, tag and collect into the mapping. -/
def loadEnvAux (nfc : String → String) (fs : FS) : List String → Except String (List (String × List TaggedEnvRow))
  | [] => .ok []
  | school :: rest =>
    match find_file nfc fs.entries (school ++ "_환경데이터.csv") with
    | none => .error ("❌ 환경 데이터 파일을 찾을 수 없습니다: " ++ school)
    | some file =>
      match loadEnvAux nfc fs rest with
      | .error msg => .error msg
      | .ok m => .ok ((school, (fs.read_csv file).map (tagEnv school)) :: m)

/-- Embeds `load_environment_data` (lines 43-55).  `.error msg` models
"st.error(msg); return None". -/
def load_environment_data (nfc : String → String) (fs : FS) : Except String (List (String × List TaggedEnvRow)) :=
  loadEnvAux nfc fs SCHOOLS

/-- Embeds `load_growth_data` (lines 57-71): locate the xlsx, and parse
each sheet into a table tagged with the sheet name. -/
def load_growth_data (nfc : String → String) (fs : FS) : Except String (List (String × List TaggedGrowthRow)) :=
  match find_file nfc fs.entries "4개교_생육결과데이터.xlsx" with
  | none => .error "❌ 생육 결과 XLSX 파일을 찾을 수 없습니다."
  | some file => .ok ((fs.workbook file).map (fun p => (p.1, p.2.map (tagGrowth p.1))))

/-- Embeds `EC_MAP` (lines 83-88). -/
def EC_MAP : List (String × ℚ) := [("송도고", 1), ("하늘고", 2), ("아라고", 4), ("동산고", 8)]

/-- Arithmetic mean of a list of rationals (pandas `.mean()`). -/
def mean (xs : List ℚ) : ℚ := xs.sum / (xs.length : ℚ)

/-- Lexicographic (code-point) order on strings, the order pandas uses
for string group keys; `s.data < t.data` is exactly `String.lt s t`. -/
def strLe (s t : String) : Bool := !(decide (t.data < s.data))

/-- Insert a string into a sorted list (ascending). -/
def insertSorted (x : String) : List String → List String
  | [] => [x]
  | y :: ys => if strLe x y then x :: y :: ys else y :: insertSorted x ys

/-- Ascending insertion sort on strings (pandas `groupby` sorts its keys). -/
def sortStrings (l : List String) : List String := l.foldr insertSorted []

/-- The group keys of a pandas `groupby(column)`: the distinct values, in
sorted order (default `sort=True`). -/
def groupKeys (rows : List (String × ℚ)) : List String :=
  sortStrings (rows.map Prod.fst).dedup

/-- Embeds `groupby("학교")[col].mean()`: one (key, mean of the key's
group) pair per distinct key, keys in sorted order. -/
def groupbyMean (rows : List (String × ℚ)) : List (String × ℚ) :=
  (groupKeys rows).map (fun k => (k, mean ((rows.filter (fun r => r.1 = k)).map Prod.snd)))

/-- The scan underlying `Series.idxmax`: keep the current best pair,
replacing it only on a strictly greater value (`Rat.blt` is the `<` of
`ℚ`), so the first occurrence of the maximum wins. -/
def argmaxGo {κ : Type} (best : κ × ℚ) : List (κ × ℚ) → κ × ℚ
  | [] => best
  | q :: rest => if Rat.blt best.2 q.2 then argmaxGo q rest else argmaxGo best rest

/-- The (index, value) pair at which a series attains its maximum, first
occurrence on ties; `none` on an empty series (pandas raises there). -/
def argmax {κ : Type} : List (κ × ℚ) → Option (κ × ℚ)
  | [] => none
  | p :: rest => some (argmaxGo p rest)

/-- Embeds `Series.idxmax` (line 137). -/
def idxmax {κ : Type} (l : List (κ × ℚ)) : Option κ := (argmax l).map Prod.fst

/-- The concatenated (school column, fresh weight) pairs of
`pd.concat(growth_data.values())` (lines 133-135): groupby reads the
`학교` column of each row. -/
def growthPairs (growth : List (String × List TaggedGrowthRow)) : List (String × ℚ) :=
  ((growth.map Prod.snd).flatten).map (fun r => (r.school, r.freshWeight))

/-- Embeds `avg_weight_by_ec` (lines 133-136): mean fresh weight per
school over the concatenated growth tables. -/
def avg_weight_by_school (growth : List (String × List TaggedGrowthRow)) : List (String × ℚ) :=
  groupbyMean (growthPairs growth)

/-- Embeds `optimal_school = avg_weight_by_ec.idxmax()` (line 137). -/
def optimal_school (growth : List (String × List TaggedGrowthRow)) : Option String :=
  idxmax (avg_weight_by_school growth)

/-- Embeds `optimal_ec = EC_MAP[optimal_school]` (line 138); `none`
models the raised KeyError (or idxmax on an empty series). -/
def optimal_ec (growth : List (String × List TaggedGrowthRow)) : Option ℚ :=
  (optimal_school growth).bind (fun s => EC_MAP.lookup s)

/-- Embeds the displayed metric `f"{optimal_ec} (하늘고)"` (line 144): the
school label beside the value is the hardcoded string 하늘고. -/
def optimal_ec_metric (growth : List (String × List TaggedGrowthRow)) : Option String :=
  (optimal_ec growth).map (fun e => toString e ++ " (하늘고)")

/-- The overview-tab numbers (lines 129-144). -/
structure Overview where
  total_plants : ℕ
  avg_temp : ℚ
  avg_hum : ℚ
  metric : Option String
deriving DecidableEq

/-- Embeds the overview computation on loaded data (lines 129-144). -/
def overview (env : List (String × List TaggedEnvRow)) (growth : List (String × List TaggedGrowthRow)) : Overview :=
  { total_plants := ((growth.map Prod.snd).map List.length).sum
    avg_temp := mean (((env.map Prod.snd).flatten).map TaggedEnvRow.temperature)
    avg_hum := mean (((env.map Prod.snd).flatten).map TaggedEnvRow.humidity)
    metric := optimal_ec_metric growth }

/-- Embeds the load-then-stop glue (lines 73-78): if either loader fails
the script stops (`st.stop`) and no overview is produced. -/
def dashboard_overview (nfc : String → String) (fs : FS) : Option Overview :=
  match load_environment_data nfc fs with
  | .error _ => none
  | .ok env =>
    match load_growth_data nfc fs with
    | .error _ => none
    | .ok growth => some (overview env growth)

/-- One row of the Merger's combined table: a growth individual
augmented with its school's environmental summary. -/
structure MergedRow where
  school : String
  temperature : ℚ
  humidity : ℚ
  ph : ℚ
  ec : ℚ
  freshWeight : ℚ
deriving DecidableEq

/-- Modelled from the spec: the Merger (§4.3) is absent from
src/main.py (it belongs to other variants of the app); per its contract,
for each school present in the growth mapping that is also present in
the environment mapping, the mean of each environmental column is
broadcast onto every growth row of that school, and schools missing from
either side are silently dropped. -/
def merge (env : List (String × List EnvRow)) (growth : List (String × List GrowthRow)) : List MergedRow :=
  growth.foldr
    (fun p acc =>
      match env.lookup p.1 with
      | none => acc
      | some erows =>
        (p.2.map (fun g =>
          { school := p.1
            temperature := mean (erows.map EnvRow.temperature)
            humidity := mean (erows.map EnvRow.humidity)
            ph := mean (erows.map EnvRow.ph)
            ec := mean (erows.map EnvRow.ec)
            freshWeight := g.freshWeight })) ++ acc)
    []

/-- First-occurrence deduplication, with an accumulator of already-seen
keys (the grouping keys of the spec's Optimum Extractor, §4.4). -/
def dedupFOAux {α : Type} [DecidableEq α] (seen : List α) : List α → List α
  | [] => []
  | x :: xs => if x ∈ seen then dedupFOAux seen xs else x :: dedupFOAux (x :: seen) xs

/-- The distinct elements of a list in first-occurrence order. -/
def dedupFO {α : Type} [DecidableEq α] (l : List α) : List α := dedupFOAux [] l

/-- Modelled from the spec: grouping by a variable's distinct values and
averaging the outcome within each group (§4.4), groups in
first-occurrence order. -/
def groupbyMeanFO (rows : List (ℚ × ℚ)) : List (ℚ × ℚ) :=
  (dedupFO (rows.map Prod.fst)).map (fun k => (k, mean ((rows.filter (fun r => r.1 = k)).map Prod.snd)))

/-- The fixed list of environmental variables of the spec's Optimum
Extractor, with the accessor of each column of the merged table. -/
def ENV_VARIABLES : List (String × (MergedRow → ℚ)) :=
  [("temperature", MergedRow.temperature), ("humidity", MergedRow.humidity),
   ("ph", MergedRow.ph), ("ec", MergedRow.ec)]

/-- Modelled from the spec: one Optimum Extractor row (§4.4) — group the
merged table by the variable's value, average the fresh weight per
group, and select the group attaining the maximal mean (first occurrence
on ties); `none` only when the merged table is empty. -/
def optimal_condition_row (get : MergedRow → ℚ) (rows : List MergedRow) : Option (ℚ × ℚ) :=
  argmax (groupbyMeanFO (rows.map (fun r => (get r, r.freshWeight))))

/-- Modelled from the spec: the Optimum Extractor's output (§4.4 and
§3 OptimalConditionRow), one summary row per environmental variable. -/
def optimal_condition_table (rows : List MergedRow) : List (String × Option (ℚ × ℚ)) :=
  ENV_VARIABLES.map (fun nv => (nv.1, optimal_condition_row nv.2 rows))

/-! ### Concrete test fixtures

Synthetic datasets used to instantiate the theorems below.  Rationals
are written with `mkRat` so that every fixture evaluates by kernel
reduction. -/

/-- A growth row carrying only a fresh weight and the school tag. -/
def mkG (w : ℚ) (s : String) : TaggedGrowthRow :=
  { freshWeight := w, leafCount := 0, shootLength := 0, plantId := 0, school := s }

/-- The spec's synthetic optimum dataset: the four schools (carrying the
EC values 1.0, 2.0, 4.0, 8.0 through `EC_MAP`) with per-school mean
fresh weights 1.2, 3.4, 2.1 and 0.9. -/
def synthGrowth : List (String × List TaggedGrowthRow) :=
  [("송도고", [mkG (mkRat 1 1) "송도고", mkG (mkRat 14 10) "송도고"]),
   ("하늘고", [mkG (mkRat 3 1) "하늘고", mkG (mkRat 38 10) "하늘고"]),
   ("아라고", [mkG (mkRat 2 1) "아라고", mkG (mkRat 22 10) "아라고"]),
   ("동산고", [mkG (mkRat 8 10) "동산고", mkG (mkRat 1 1) "동산고"])]

/-- A dataset in which 동산고 and 하늘고 tie at mean fresh weight 3.5. -/
def tieGrowth : List (String × List TaggedGrowthRow) :=
  [("송도고", [mkG (mkRat 1 1) "송도고"]),
   ("하늘고", [mkG (mkRat 3 1) "하늘고", mkG (mkRat 4 1) "하늘고"]),
   ("동산고", [mkG (mkRat 7 2) "동산고"])]

/-- A dataset in which 송도고 (EC 1.0), not 하늘고, attains the maximal
mean fresh weight. -/
def songdoWins : List (String × List TaggedGrowthRow) :=
  [("송도고", [mkG (mkRat 5 1) "송도고"]),
   ("하늘고", [mkG (mkRat 1 1) "하늘고"])]

/-- A growth spreadsheet with a sheet 국제고 outside the four schools of
`EC_MAP`, whose mean fresh weight is maximal. -/
def badGrowth : List (String × List TaggedGrowthRow) :=
  [("국제고", [mkG (mkRat 5 1) "국제고"]),
   ("하늘고", [mkG (mkRat 1 1) "하늘고"])]

/-- An environment reading used by the loader fixtures. -/
def eRow : EnvRow := { temperature := mkRat 20 1, humidity := mkRat 50 1, ph := mkRat 7 1, ec := mkRat 2 1 }

/-- Two growth rows used by the loader fixtures. -/
def gRow1 : GrowthRow := { freshWeight := mkRat 3 1, leafCount := mkRat 5 1, shootLength := mkRat 80 1, plantId := 1 }

def gRow2 : GrowthRow := { freshWeight := mkRat 4 1, leafCount := mkRat 6 1, shootLength := mkRat 90 1, plantId := 2 }

/-- A data directory holding all four environment CSVs and the growth
spreadsheet (filenames already in composed form). -/
def fsGood : FS :=
  { entries := ["송도고_환경데이터.csv", "하늘고_환경데이터.csv", "아라고_환경데이터.csv",
                "동산고_환경데이터.csv", "4개교_생육결과데이터.xlsx"]
    read_csv := fun _ => [eRow]
    workbook := fun _ => [("송도고", [gRow1]), ("하늘고", [gRow2])] }

/-- An empty data directory. -/
def fsEmpty : FS := { entries := [], read_csv := fun _ => [], workbook := fun _ => [] }

/-- The environment mapping `fsGood` loads. -/
def envGood : List (String × List TaggedEnvRow) :=
  [("송도고", [tagEnv "송도고" eRow]), ("하늘고", [tagEnv "하늘고" eRow]),
   ("아라고", [tagEnv "아라고" eRow]), ("동산고", [tagEnv "동산고" eRow])]

/-- The growth mapping `fsGood` loads. -/
def growthGood : List (String × List TaggedGrowthRow) :=
  [("송도고", [tagGrowth "송도고" gRow1]), ("하늘고", [tagGrowth "하늘고" gRow2])]

/-- The composed (NFC) spelling of 하늘고_환경데이터.csv. -/
def nfcName : String := "하늘고_환경데이터.csv"

/-- The decomposed (NFD) spelling of the same visible filename, written
with conjoining jamo. -/
def nfdName : String :=
  "\u1112\u1161\u1102\u1173\u11af\u1100\u1169_\u1112\u116a\u11ab\u1100\u1167\u11bc\u1103\u1166\u110b\u1175\u1110\u1165.csv"

/-- A toy composition-normalizer: it sends the decomposed spelling of
the one filename the fixture uses to its composed form and fixes every
other string, as NFC does. -/
def toyNFC (s : String) : String := if s = nfdName then nfcName else s

/-- Environment mapping for schools A and B (Merger fixture). -/
def envAB : List (String × List EnvRow) := [("A", [eRow]), ("B", [eRow])]

/-- Growth mapping for schools B and C (Merger fixture). -/
def growthBC : List (String × List GrowthRow) := [("B", [gRow1]), ("C", [gRow2])]

/-- A single-school dataset for the end-to-end boundary scenario. -/
def envS1 : List (String × List EnvRow) := [("S1", [eRow])]

def growthS1 : List (String × List GrowthRow) := [("S1", [gRow1, gRow2])]

/-- The single merged row the Merger fixture produces (school B is the
only school present on both sides). -/
def mergedB : MergedRow :=
  { school := "B"
    temperature := mean ([eRow].map EnvRow.temperature)
    humidity := mean ([eRow].map EnvRow.humidity)
    ph := mean ([eRow].map EnvRow.ph)
    ec := mean ([eRow].map EnvRow.ec)
    freshWeight := gRow1.freshWeight }

/-! ### Helper lemmas -/

theorem blt_iff (a b : ℚ) : (Rat.blt a b = true) ↔ a < b := Iff.rfl

theorem argmaxGo_spec {κ : Type} (rest : List (κ × ℚ)) (best : κ × ℚ) :
    ∃ l1 l2, best :: rest = l1 ++ argmaxGo best rest :: l2 ∧
      (∀ q ∈ l1, q.2 < (argmaxGo best rest).2) ∧
      (∀ q ∈ best :: rest, q.2 ≤ (argmaxGo best rest).2) := by
  induction rest generalizing best with
  | nil => exact ⟨[], [], rfl, by simp, by simp [argmaxGo]⟩
  | cons q rest ih =>
    by_cases h : best.2 < q.2
    · obtain ⟨l1, l2, heq, hlt, hle⟩ := ih q
      rw [show argmaxGo best (q :: rest) = argmaxGo q rest from by
        rw [argmaxGo, if_pos ((blt_iff _ _).mpr h)]]
      refine ⟨best :: l1, l2, ?_, ?_, ?_⟩
      · rw [List.cons_append, ← heq]
      · intro p hp
        rcases List.mem_cons.mp hp with rfl | hp
        · exact lt_of_lt_of_le h (hle q (by simp))
        · exact hlt p hp
      · intro p hp
        rcases List.mem_cons.mp hp with rfl | hp
        · exact le_of_lt (lt_of_lt_of_le h (hle q (by simp)))
        · exact hle p hp
    · obtain ⟨l1, l2, heq, hlt, hle⟩ := ih best
      rw [show argmaxGo best (q :: rest) = argmaxGo best rest from by
        rw [argmaxGo, if_neg (fun hc => h ((blt_iff _ _).mp hc))]]
      match l1, heq with
      | [], heq =>
        rw [List.nil_append] at heq
        obtain ⟨hb, hl⟩ := List.cons.injEq .. ▸ heq
        refine ⟨[], q :: rest, ?_, by simp, ?_⟩
        · rw [List.nil_append, ← hb]
        · intro p hp
          rcases List.mem_cons.mp hp with rfl | hp
          · rw [← hb]
          · rcases List.mem_cons.mp hp with rfl | hp
            · rw [← hb]; exact le_of_not_lt h
            · exact hle p (List.mem_cons_of_mem _ hp)
      | a :: l1', heq =>
        rw [List.cons_append] at heq
        obtain ⟨hb, hl⟩ := List.cons.injEq .. ▸ heq
        have hbestlt : best.2 < (argmaxGo best rest).2 := hb ▸ hlt a (by simp)
        refine ⟨best :: q :: l1', l2, ?_, ?_, ?_⟩
        · rw [List.cons_append, List.cons_append, ← hl]
        · intro p hp
          rcases List.mem_cons.mp hp with rfl | hp
          · exact hbestlt
          · rcases List.mem_cons.mp hp with rfl | hp
            · exact lt_of_le_of_lt (le_of_not_lt h) hbestlt
            · exact hlt p (hb ▸ List.mem_cons_of_mem a hp)
        · intro p hp
          rcases List.mem_cons.mp hp with rfl | hp
          · exact hle p (by simp)
          · rcases List.mem_cons.mp hp with rfl | hp
            · exact le_trans (le_of_not_lt h) (hle best (by simp))
            · exact hle p (List.mem_cons_of_mem _ hp)

theorem argmax_spec {κ : Type} (l : List (κ × ℚ)) (p : κ × ℚ) (h : argmax l = some p) :
    ∃ l1 l2, l = l1 ++ p :: l2 ∧ (∀ q ∈ l1, q.2 < p.2) ∧ (∀ q ∈ l, q.2 ≤ p.2) := by
  match l, h with
  | a :: rest, h =>
    have hp : argmaxGo a rest = p := by simpa [argmax] using h
    obtain ⟨l1, l2, heq, hlt, hle⟩ := argmaxGo_spec rest a
    exact ⟨l1, l2, by rw [← hp, ← heq], fun q hq => hp ▸ hlt q hq, fun q hq => hp ▸ hle q (heq ▸ hq)⟩

theorem argmax_mem {κ : Type} (l : List (κ × ℚ)) (p : κ × ℚ) (h : argmax l = some p) : p ∈ l := by
  obtain ⟨l1, l2, heq, _, _⟩ := argmax_spec l p h
  rw [heq]; exact List.mem_append_right l1 (by simp)

theorem argmax_eq_none {κ : Type} (l : List (κ × ℚ)) : argmax l = none ↔ l = [] := by
  cases l <;> simp [argmax]

theorem mem_insertSorted (x y : String) (l : List String) :
    y ∈ insertSorted x l ↔ y = x ∨ y ∈ l := by
  induction l with
  | nil => simp [insertSorted]
  | cons a l ih =>
    by_cases h : strLe x a = true
    · simp [insertSorted, h]
    · simp only [insertSorted, if_neg h, List.mem_cons, ih]
      tauto

theorem mem_sortStrings (y : String) (l : List String) : y ∈ sortStrings l ↔ y ∈ l := by
  induction l with
  | nil => simp [sortStrings]
  | cons a l ih =>
    show y ∈ insertSorted a (sortStrings l) ↔ _
    rw [mem_insertSorted, ih, List.mem_cons]

theorem mem_groupbyMean (rows : List (String × ℚ)) (p : String × ℚ) (h : p ∈ groupbyMean rows) :
    p.1 ∈ rows.map Prod.fst ∧
      p.2 = mean ((rows.filter (fun r => r.1 = p.1)).map Prod.snd) := by
  simp only [groupbyMean, List.mem_map] at h
  obtain ⟨k, hk, rfl⟩ := h
  refine ⟨?_, rfl⟩
  exact List.mem_dedup.mp ((mem_sortStrings k _).mp hk)

theorem groupbyMean_ne_nil (rows : List (String × ℚ)) (h : rows ≠ []) : groupbyMean rows ≠ [] := by
  match rows, h with
  | r :: rest, _ =>
    have h1 : r.1 ∈ (((r :: rest).map Prod.fst).dedup) := List.mem_dedup.mpr (by simp)
    have h2 : r.1 ∈ groupKeys (r :: rest) := (mem_sortStrings _ _).mpr h1
    have h3 : (r.1, mean ((((r :: rest)).filter (fun q => q.1 = r.1)).map Prod.snd)) ∈
        groupbyMean (r :: rest) := List.mem_map.mpr ⟨r.1, h2, rfl⟩
    exact List.ne_nil_of_mem h3

theorem find?_first {α : Type} (p : α → Bool) (l : List α) (x : α) (h : l.find? p = some x) :
    p x = true ∧ ∃ l1 l2, l = l1 ++ x :: l2 ∧ ∀ g ∈ l1, p g = false := by
  induction l with
  | nil => simp at h
  | cons a l ih =>
    by_cases ha : p a
    · rw [List.find?_cons_of_pos _ ha, Option.some.injEq] at h
      exact ⟨h ▸ ha, [], l, by simp [h], by simp⟩
    · rw [List.find?_cons_of_neg _ (by simpa using ha)] at h
      obtain ⟨hx, l1, l2, heq, hfalse⟩ := ih h
      refine ⟨hx, a :: l1, l2, by rw [List.cons_append, heq], ?_⟩
      intro g hg
      rcases List.mem_cons.mp hg with rfl | hg
      · simpa using ha
      · exact hfalse g hg

theorem loadEnvAux_ok (nfc : String → String) (fs : FS) :
    ∀ (schools : List String) (m : List (String × List TaggedEnvRow)),
      loadEnvAux nfc fs schools = .ok m →
      m.map Prod.fst = schools ∧ ∀ p ∈ m, ∀ r ∈ p.2, r.school = p.1 := by
  intro schools
  induction schools with
  | nil => intro m h; simp [loadEnvAux] at h; subst h; simp
  | cons school rest ih =>
    intro m h
    simp only [loadEnvAux] at h
    match hf : find_file nfc fs.entries (school ++ "_환경데이터.csv") with
    | none => rw [hf] at h; exact absurd h (by simp)
    | some file =>
      rw [hf] at h
      match hr : loadEnvAux nfc fs rest with
      | .error msg => rw [hr] at h; exact absurd h (by simp)
      | .ok m' =>
        rw [hr] at h
        obtain ⟨hkeys, htag⟩ := ih m' hr
        have hm : m = (school, (fs.read_csv file).map (tagEnv school)) :: m' := by
          simpa using h.symm
        subst hm
        refine ⟨by simp [hkeys], ?_⟩
        intro p hp r hr2
        rcases List.mem_cons.mp hp with rfl | hp
        · obtain ⟨r0, _, rfl⟩ := List.mem_map.mp hr2
          rfl
        · exact htag p hp r hr2

theorem loadEnvAux_missing (nfc : String → String) (fs : FS) :
    ∀ (schools : List String),
      (∃ s ∈ schools, find_file nfc fs.entries (s ++ "_환경데이터.csv") = none) →
      ∃ s ∈ schools, find_file nfc fs.entries (s ++ "_환경데이터.csv") = none ∧
        loadEnvAux nfc fs schools = .error ("❌ 환경 데이터 파일을 찾을 수 없습니다: " ++ s) := by
  intro schools
  induction schools with
  | nil => rintro ⟨s, hs, _⟩; exact absurd hs (by simp)
  | cons school rest ih =>
    rintro ⟨s, hs, hnone⟩
    match hf : find_file nfc fs.entries (school ++ "_환경데이터.csv") with
    | none =>
      exact ⟨school, by simp, hf, by simp [loadEnvAux, hf]⟩
    | some file =>
      have hs' : s ∈ rest := by
        rcases List.mem_cons.mp hs with rfl | hs'
        · rw [hf] at hnone; exact absurd hnone (by simp)
        · exact hs'
      obtain ⟨t, ht, htnone, herr⟩ := ih ⟨s, hs', hnone⟩
      exact ⟨t, List.mem_cons_of_mem _ ht, htnone, by simp [loadEnvAux, hf, herr]⟩

theorem mem_dedupFOAux {α : Type} [DecidableEq α] (x : α) :
    ∀ (l seen : List α), x ∈ dedupFOAux seen l ↔ x ∈ l ∧ x ∉ seen := by
  intro l
  induction l with
  | nil => intro seen; simp [dedupFOAux]
  | cons y l ih =>
    intro seen
    by_cases hy : y ∈ seen
    · rw [show dedupFOAux seen (y :: l) = dedupFOAux seen l from by simp [dedupFOAux, hy]]
      rw [ih seen]
      constructor
      · rintro ⟨h1, h2⟩; exact ⟨List.mem_cons_of_mem _ h1, h2⟩
      · rintro ⟨h1, h2⟩
        rcases List.mem_cons.mp h1 with rfl | h1
        · exact absurd hy h2
        · exact ⟨h1, h2⟩
    · rw [show dedupFOAux seen (y :: l) = y :: dedupFOAux (y :: seen) l from by
        simp [dedupFOAux, hy]]
      rw [List.mem_cons, ih (y :: seen)]
      constructor
      · rintro (rfl | ⟨h1, h2⟩)
        · exact ⟨by simp, hy⟩
        · exact ⟨List.mem_cons_of_mem _ h1, fun hc => h2 (List.mem_cons_of_mem _ hc)⟩
      · rintro ⟨h1, h2⟩
        rcases List.mem_cons.mp h1 with rfl | h1
        · exact Or.inl rfl
        · by_cases hxy : x = y
          · exact Or.inl hxy
          · exact Or.inr ⟨h1, by simp [hxy, h2]⟩

theorem mem_dedupFO {α : Type} [DecidableEq α] (x : α) (l : List α) :
    x ∈ dedupFO l ↔ x ∈ l := by
  rw [dedupFO, mem_dedupFOAux]; simp

theorem mem_groupbyMeanFO (rows : List (ℚ × ℚ)) (p : ℚ × ℚ) (h : p ∈ groupbyMeanFO rows) :
    p.1 ∈ rows.map Prod.fst ∧
      p.2 = mean ((rows.filter (fun r => r.1 = p.1)).map Prod.snd) := by
  simp only [groupbyMeanFO, List.mem_map] at h
  obtain ⟨k, hk, rfl⟩ := h
  exact ⟨(mem_dedupFO k _).mp hk, rfl⟩

theorem groupbyMeanFO_ne_nil (rows : List (ℚ × ℚ)) (h : rows ≠ []) : groupbyMeanFO rows ≠ [] := by
  match rows, h with
  | r :: rest, _ =>
    have h1 : r.1 ∈ dedupFO ((r :: rest).map Prod.fst) := (mem_dedupFO _ _).mpr (by simp)
    exact List.ne_nil_of_mem (List.mem_map.mpr ⟨r.1, h1, rfl⟩)

/-! ### Evaluation of the fixtures -/

theorem avg_synth : avg_weight_by_school synthGrowth =
    [("동산고", mkRat 9 10), ("송도고", mkRat 6 5), ("아라고", mkRat 21 10), ("하늘고", mkRat 17 5)] := by
  with_unfolding_all decide

theorem avg_tie : avg_weight_by_school tieGrowth =
    [("동산고", mkRat 7 2), ("송도고", mkRat 1 1), ("하늘고", mkRat 7 2)] := by
  with_unfolding_all decide

theorem avg_songdo : avg_weight_by_school songdoWins =
    [("송도고", mkRat 5 1), ("하늘고", mkRat 1 1)] := by
  with_unfolding_all decide

theorem avg_bad : avg_weight_by_school badGrowth =
    [("국제고", mkRat 5 1), ("하늘고", mkRat 1 1)] := by
  with_unfolding_all decide

theorem avg_good : avg_weight_by_school growthGood =
    [("송도고", mkRat 3 1), ("하늘고", mkRat 4 1)] := by
  with_unfolding_all decide

theorem opt_synth : optimal_school synthGrowth = some "하늘고" := by
  unfold optimal_school; rw [avg_synth]; decide

theorem ec_synth : optimal_ec synthGrowth = some 2 := by
  unfold optimal_ec optimal_school; rw [avg_synth]; decide

theorem lookup_synth : (avg_weight_by_school synthGrowth).lookup "하늘고" = some (17/5) := by
  rw [avg_synth, show (17/5 : ℚ) = mkRat 17 5 from by norm_num]; decide

theorem opt_tie : optimal_school tieGrowth = some "동산고" := by
  unfold optimal_school; rw [avg_tie]; decide

theorem opt_songdo : optimal_school songdoWins = some "송도고" := by
  unfold optimal_school; rw [avg_songdo]; decide

theorem ec_songdo : optimal_ec songdoWins = some 1 := by
  unfold optimal_ec optimal_school; rw [avg_songdo]; decide

theorem metric_songdo : optimal_ec_metric songdoWins = some "1 (하늘고)" := by
  unfold optimal_ec_metric
  rw [ec_songdo, show (1:ℚ) = mkRat 1 1 from by norm_num]
  decide

theorem opt_bad : optimal_school badGrowth = some "국제고" := by
  unfold optimal_school; rw [avg_bad]; decide

theorem ec_bad : optimal_ec badGrowth = none := by
  unfold optimal_ec
  rw [opt_bad]; decide

theorem opt_good : optimal_school growthGood = some "하늘고" := by
  unfold optimal_school; rw [avg_good]; decide

theorem loader_env_good : load_environment_data id fsGood = .ok envGood := rfl

theorem loader_growth_good : load_growth_data id fsGood = .ok growthGood := rfl



theorem idxmax_argmax (growth : List (String × List TaggedGrowthRow)) (s : String)
    (h : optimal_school growth = some s) :
    ∃ p, argmax (avg_weight_by_school growth) = some p ∧ p.1 = s := by
  unfold optimal_school idxmax at h
  match hp : argmax (avg_weight_by_school growth) with
  | none => rw [hp] at h; simp at h
  | some p => rw [hp] at h; exact ⟨p, rfl, by simpa using h⟩

/-- C1: grouping the growth records by school and taking the mean fresh
weight per group, the reported optimal school attains the maximal mean;
on the synthetic dataset whose four groups carry EC values 1.0, 2.0,
4.0, 8.0 (via `EC_MAP`) and mean fresh weights 1.2, 3.4, 2.1, 0.9, the
reported optimum is EC = 2.0 (school 하늘고) with mean 3.4 = 17/5. -/
theorem c1_optimum_is_max_mean :
    (∀ (growth : List (String × List TaggedGrowthRow)) (s : String),
      optimal_school growth = some s →
      ∃ v, (s, v) ∈ avg_weight_by_school growth ∧
        ∀ q ∈ avg_weight_by_school growth, q.2 ≤ v) ∧
    optimal_school synthGrowth = some "하늘고" ∧
    optimal_ec synthGrowth = some 2 ∧
    (avg_weight_by_school synthGrowth).lookup "하늘고" = some (17/5) := by
  refine ⟨?_, opt_synth, ec_synth, lookup_synth⟩
  intro growth s h
  obtain ⟨p, hp, rfl⟩ := idxmax_argmax growth s h
  obtain ⟨l1, l2, heq, hlt, hle⟩ := argmax_spec _ p hp
  exact ⟨p.2, argmax_mem _ p hp, hle⟩

theorem c1_witness :
    optimal_school synthGrowth = some "하늘고" ∧
    ∃ v, ("하늘고", v) ∈ avg_weight_by_school synthGrowth ∧
      ∀ q ∈ avg_weight_by_school synthGrowth, q.2 ≤ v := by
  have h : optimal_school synthGrowth = some "하늘고" := by
    unfold optimal_school; rw [avg_synth]; decide
  exact ⟨h, c1_optimum_is_max_mean.1 synthGrowth "하늘고" h⟩

/-- C8: the school reported by the max-seeking scan is the first group,
in the grouped output's order, attaining the maximal mean — every group
strictly before it has a strictly smaller mean, and no group beats it. -/
theorem c8_tie_break_first_occurrence (growth : List (String × List TaggedGrowthRow)) (s : String)
    (h : optimal_school growth = some s) :
    ∃ v l1 l2, avg_weight_by_school growth = l1 ++ (s, v) :: l2 ∧
      (∀ q ∈ l1, q.2 < v) ∧
      ∀ q ∈ avg_weight_by_school growth, q.2 ≤ v := by
  obtain ⟨p, hp, rfl⟩ := idxmax_argmax growth s h
  obtain ⟨l1, l2, heq, hlt, hle⟩ := argmax_spec _ p hp
  exact ⟨p.2, l1, l2, heq, hlt, hle⟩

theorem c8_witness :
    optimal_school tieGrowth = some "동산고" ∧
    ∃ v l1 l2, avg_weight_by_school tieGrowth = l1 ++ ("동산고", v) :: l2 ∧
      (∀ q ∈ l1, q.2 < v) ∧
      ∀ q ∈ avg_weight_by_school tieGrowth, q.2 ≤ v := by
  have h : optimal_school tieGrowth = some "동산고" := by
    unfold optimal_school; rw [avg_tie]; decide
  exact ⟨h, c8_tie_break_first_occurrence tieGrowth "동산고" h⟩

/-- C9: the school label beside the optimal-EC metric is the hardcoded
string 하늘고 for every dataset, while the value is computed from the
winning school; on a dataset where 송도고 wins, the metric still reads
"1 (하늘고)". -/
theorem c9_hardcoded_label :
    (∀ (growth : List (String × List TaggedGrowthRow)) (m : String),
      optimal_ec_metric growth = some m →
      ∃ e, optimal_ec growth = some e ∧ m = toString e ++ " (하늘고)") ∧
    optimal_school songdoWins = some "송도고" ∧
    optimal_ec_metric songdoWins = some "1 (하늘고)" := by
  refine ⟨?_, opt_songdo, metric_songdo⟩
  intro growth m h
  unfold optimal_ec_metric at h
  match he : optimal_ec growth with
  | none => rw [he] at h; simp at h
  | some e => rw [he] at h; exact ⟨e, rfl, by simpa using h.symm⟩

theorem c9_witness :
    optimal_ec_metric songdoWins = some "1 (하늘고)" ∧
    ∃ e, optimal_ec songdoWins = some e ∧ "1 (하늘고)" = toString e ++ " (하늘고)" := by
  have h : optimal_ec_metric songdoWins = some "1 (하늘고)" := by
    unfold optimal_ec_metric
    rw [ec_songdo, show (1:ℚ) = mkRat 1 1 from by norm_num]
    decide
  exact ⟨h, c9_hardcoded_label.1 songdoWins "1 (하늘고)" h⟩



theorem load_growth_ok (nfc : String → String) (fs : FS)
    (growth : List (String × List TaggedGrowthRow))
    (h : load_growth_data nfc fs = .ok growth) :
    ∃ file, find_file nfc fs.entries "4개교_생육결과데이터.xlsx" = some file ∧
      growth = (fs.workbook file).map (fun p => (p.1, p.2.map (tagGrowth p.1))) := by
  unfold load_growth_data at h
  match hf : find_file nfc fs.entries "4개교_생육결과데이터.xlsx" with
  | none => rw [hf] at h; exact absurd h (by simp)
  | some file => rw [hf] at h; exact ⟨file, rfl, by simpa using h.symm⟩

theorem load_growth_tagged (nfc : String → String) (fs : FS)
    (growth : List (String × List TaggedGrowthRow))
    (h : load_growth_data nfc fs = .ok growth) :
    ∀ p ∈ growth, ∀ r ∈ p.2, r.school = p.1 := by
  obtain ⟨file, _, rfl⟩ := load_growth_ok nfc fs growth h
  intro p hp r hr
  obtain ⟨q, hq, rfl⟩ := List.mem_map.mp hp
  obtain ⟨r0, _, rfl⟩ := List.mem_map.mp hr
  rfl

theorem optimal_school_is_tag (growth : List (String × List TaggedGrowthRow)) (s : String)
    (h : optimal_school growth = some s) :
    ∃ p ∈ growth, ∃ r ∈ p.2, TaggedGrowthRow.school r = s := by
  obtain ⟨p, hp, rfl⟩ := idxmax_argmax growth s h
  have hmem := (mem_groupbyMean _ p (argmax_mem _ p hp)).1
  simp only [growthPairs, List.map_map, List.mem_map, List.mem_flatten] at hmem
  obtain ⟨r, ⟨tbl, htbl, hrin⟩, hs⟩ := hmem
  obtain ⟨q, hq, rfl⟩ := htbl
  exact ⟨q, hq, r, hrin, hs⟩

/-- C10: if every sheet of the growth spreadsheet is one of the four
schools of `EC_MAP`, the lookup `EC_MAP[optimal_school]` succeeds; on a
spreadsheet whose winning sheet 국제고 is outside that set, the lookup
fails (KeyError) and no optimal EC is reported. -/
theorem c10_ec_lookup_safety :
    (∀ (nfc : String → String) (fs : FS) (growth : List (String × List TaggedGrowthRow)),
      load_growth_data nfc fs = .ok growth →
      (∀ p ∈ growth, p.1 ∈ SCHOOLS) →
      ∀ s, optimal_school growth = some s → (EC_MAP.lookup s).isSome = true) ∧
    optimal_school badGrowth = some "국제고" ∧
    EC_MAP.lookup "국제고" = none ∧
    optimal_ec badGrowth = none := by
  refine ⟨?_, opt_bad, by decide, ec_bad⟩
  intro nfc fs growth hok htags s h
  obtain ⟨p, hp, r, hr, rfl⟩ := optimal_school_is_tag growth s h
  have htag := load_growth_tagged nfc fs growth hok p hp r hr
  rw [htag]
  have hall : ∀ t ∈ SCHOOLS, (EC_MAP.lookup t).isSome = true := by decide
  exact hall p.1 (htags p hp)

theorem c10_witness :
    load_growth_data id fsGood = .ok growthGood ∧
    optimal_school growthGood = some "하늘고" ∧
    (EC_MAP.lookup "하늘고").isSome = true := by
  have h2 : optimal_school growthGood = some "하늘고" := by
    unfold optimal_school; rw [avg_good]; decide
  exact ⟨loader_growth_good, h2,
    c10_ec_lookup_safety.1 id fsGood growthGood loader_growth_good (by decide) "하늘고" h2⟩



/-- C4: the locator is invariant under Unicode normalization of its
target — any two spellings with the same normalized form resolve to the
same directory entry (or the same not-found result). -/
theorem c4_normalization_invariance (nfc : String → String) (dir : List String) (s t : String)
    (h : nfc s = nfc t) : find_file nfc dir s = find_file nfc dir t := by
  unfold find_file
  simp only [h]

theorem c4_witness :
    toyNFC nfdName = toyNFC nfcName ∧
    find_file toyNFC [nfcName] nfdName = find_file toyNFC [nfcName] nfcName ∧
    find_file toyNFC [nfcName] nfdName = some nfcName := by
  have h : toyNFC nfdName = toyNFC nfcName := by decide
  exact ⟨h, c4_normalization_invariance toyNFC [nfcName] nfdName nfcName h, by decide⟩

/-- C7: `find_file` returns the first entry in directory iteration order
whose normalized name equals the normalized target, and `none` exactly
when no entry matches. -/
theorem c7_find_file_first_match (nfc : String → String) (dir : List String) (target : String) :
    (find_file nfc dir target = none ↔ ∀ f ∈ dir, nfc f ≠ nfc target) ∧
    ∀ f, find_file nfc dir target = some f →
      nfc f = nfc target ∧ ∃ l1 l2, dir = l1 ++ f :: l2 ∧ ∀ g ∈ l1, nfc g ≠ nfc target := by
  constructor
  · rw [find_file, List.find?_eq_none]
    constructor
    · intro h f hf
      have := h f hf
      simpa using this
    · intro h f hf
      simpa using h f hf
  · intro f h
    obtain ⟨hf, l1, l2, heq, hfalse⟩ := find?_first _ dir f h
    refine ⟨by simpa using hf, l1, l2, heq, ?_⟩
    intro g hg
    have := hfalse g hg
    simpa using this

theorem c7_witness :
    find_file toyNFC ["a.csv", nfcName, "b.csv"] nfdName = some nfcName ∧
    toyNFC nfcName = toyNFC nfdName ∧
    ∃ l1 l2, ["a.csv", nfcName, "b.csv"] = l1 ++ nfcName :: l2 ∧
      ∀ g ∈ l1, toyNFC g ≠ toyNFC nfdName := by
  have h : find_file toyNFC ["a.csv", nfcName, "b.csv"] nfdName = some nfcName := by decide
  obtain ⟨h1, h2⟩ := (c7_find_file_first_match toyNFC ["a.csv", nfcName, "b.csv"] nfdName).2 nfcName h
  exact ⟨h, h1, h2⟩

/-- C5: a missing environment file for any required school is fatal —
the loader reports an error naming a missing school and returns the
failure signal rather than a partial mapping, and the dashboard stops
with no output; likewise a missing growth spreadsheet. -/
theorem c5_missing_file_fatal :
    (∀ (nfc : String → String) (fs : FS), ∀ school ∈ SCHOOLS,
      find_file nfc fs.entries (school ++ "_환경데이터.csv") = none →
      (∃ s ∈ SCHOOLS, find_file nfc fs.entries (s ++ "_환경데이터.csv") = none ∧
        load_environment_data nfc fs =
          .error ("❌ 환경 데이터 파일을 찾을 수 없습니다: " ++ s)) ∧
      (∀ m, load_environment_data nfc fs ≠ .ok m) ∧
      dashboard_overview nfc fs = none) ∧
    (∀ (nfc : String → String) (fs : FS),
      find_file nfc fs.entries "4개교_생육결과데이터.xlsx" = none →
      load_growth_data nfc fs = .error "❌ 생육 결과 XLSX 파일을 찾을 수 없습니다." ∧
      dashboard_overview nfc fs = none) := by
  constructor
  · intro nfc fs school hs hnone
    obtain ⟨s, hsin, hsnone, herr⟩ := loadEnvAux_missing nfc fs SCHOOLS ⟨school, hs, hnone⟩
    refine ⟨⟨s, hsin, hsnone, herr⟩, ?_, ?_⟩
    · intro m hm
      exact absurd (herr.symm.trans hm) (by simp)
    · unfold dashboard_overview
      rw [show load_environment_data nfc fs =
        .error ("❌ 환경 데이터 파일을 찾을 수 없습니다: " ++ s) from herr]
  · intro nfc fs hnone
    have hg : load_growth_data nfc fs = .error "❌ 생육 결과 XLSX 파일을 찾을 수 없습니다." := by
      unfold load_growth_data
      rw [hnone]
    refine ⟨hg, ?_⟩
    unfold dashboard_overview
    match he : load_environment_data nfc fs with
    | .error msg => rfl
    | .ok env => rw [hg]

theorem c5_witness :
    "송도고" ∈ SCHOOLS ∧
    find_file id fsEmpty.entries ("송도고" ++ "_환경데이터.csv") = none ∧
    ((∃ s ∈ SCHOOLS, find_file id fsEmpty.entries (s ++ "_환경데이터.csv") = none ∧
        load_environment_data id fsEmpty =
          .error ("❌ 환경 데이터 파일을 찾을 수 없습니다: " ++ s)) ∧
      (∀ m, load_environment_data id fsEmpty ≠ .ok m) ∧
      dashboard_overview id fsEmpty = none) := by
  have h1 : "송도고" ∈ SCHOOLS := by decide
  have h2 : find_file id fsEmpty.entries ("송도고" ++ "_환경데이터.csv") = none := by decide
  exact ⟨h1, h2, c5_missing_file_fatal.1 id fsEmpty "송도고" h1 h2⟩

/-- C6: on success the environment mapping's keys are exactly the four
fixed schools and the growth mapping's keys are exactly the sheet names
of the located spreadsheet, with every row tagged with its school. -/
theorem c6_loader_keys (nfc : String → String) (fs : FS)
    (env : List (String × List TaggedEnvRow)) (growth : List (String × List TaggedGrowthRow))
    (h1 : load_environment_data nfc fs = .ok env)
    (h2 : load_growth_data nfc fs = .ok growth) :
    env.map Prod.fst = SCHOOLS ∧
    (∀ p ∈ env, ∀ r ∈ p.2, TaggedEnvRow.school r = p.1) ∧
    (∃ file, find_file nfc fs.entries "4개교_생육결과데이터.xlsx" = some file ∧
      growth.map Prod.fst = (fs.workbook file).map Prod.fst) ∧
    ∀ p ∈ growth, ∀ r ∈ p.2, TaggedGrowthRow.school r = p.1 := by
  obtain ⟨hkeys, htag⟩ := loadEnvAux_ok nfc fs SCHOOLS env h1
  obtain ⟨file, hfile, hgrowth⟩ := load_growth_ok nfc fs growth h2
  refine ⟨hkeys, htag, ⟨file, hfile, ?_⟩, load_growth_tagged nfc fs growth h2⟩
  rw [hgrowth, List.map_map]
  rfl

theorem c6_witness :
    load_environment_data id fsGood = .ok envGood ∧
    load_growth_data id fsGood = .ok growthGood ∧
    (envGood.map Prod.fst = SCHOOLS ∧
      (∀ p ∈ envGood, ∀ r ∈ p.2, TaggedEnvRow.school r = p.1) ∧
      (∃ file, find_file id fsGood.entries "4개교_생육결과데이터.xlsx" = some file ∧
        growthGood.map Prod.fst = (fsGood.workbook file).map Prod.fst) ∧
      ∀ p ∈ growthGood, ∀ r ∈ p.2, TaggedGrowthRow.school r = p.1) :=
  ⟨loader_env_good, loader_growth_good,
    c6_loader_keys id fsGood envGood growthGood loader_env_good loader_growth_good⟩



theorem lookup_mem {α : Type} (env : List (String × α)) (x : String) (v : α)
    (h : env.lookup x = some v) : x ∈ env.map Prod.fst := by
  induction env with
  | nil => simp [List.lookup] at h
  | cons p rest ih =>
    rw [List.lookup] at h
    by_cases he : x == p.1
    · simp only [List.map_cons, List.mem_cons]
      exact Or.inl (eq_of_beq he)
    · rw [Bool.not_eq_true] at he
      rw [he] at h
      exact List.mem_cons_of_mem _ (ih h)

/-- C3: every merged row's school occurs in both input mappings —
schools present on only one side are dropped with no error — and on the
fixture with environment schools A, B and growth schools B, C, the
merged table contains exactly the school-B rows. -/
theorem c3_merge_inner_join :
    (∀ (env : List (String × List EnvRow)) (growth : List (String × List GrowthRow)),
      ∀ r ∈ merge env growth,
        MergedRow.school r ∈ env.map Prod.fst ∧ MergedRow.school r ∈ growth.map Prod.fst) ∧
    (merge envAB growthBC).map MergedRow.school = ["B"] := by
  constructor
  · intro env growth
    induction growth with
    | nil => intro r hr; simp [merge] at hr
    | cons p rest ih =>
      intro r hr
      rw [show merge env (p :: rest) =
        (match env.lookup p.1 with
         | none => merge env rest
         | some erows =>
           (p.2.map (fun g =>
             { school := p.1
               temperature := mean (erows.map EnvRow.temperature)
               humidity := mean (erows.map EnvRow.humidity)
               ph := mean (erows.map EnvRow.ph)
               ec := mean (erows.map EnvRow.ec)
               freshWeight := g.freshWeight })) ++ merge env rest) from rfl] at hr
      match hl : env.lookup p.1 with
      | none =>
        rw [hl] at hr
        obtain ⟨h1, h2⟩ := ih r hr
        exact ⟨h1, List.mem_cons_of_mem _ h2⟩
      | some erows =>
        rw [hl] at hr
        rcases List.mem_append.mp hr with hin | hin
        · obtain ⟨g, hg, rfl⟩ := List.mem_map.mp hin
          exact ⟨lookup_mem env p.1 erows hl, by simp⟩
        · obtain ⟨h1, h2⟩ := ih r hin
          exact ⟨h1, List.mem_cons_of_mem _ h2⟩
  · decide

theorem c3_witness :
    merge envAB growthBC = [mergedB] ∧
    MergedRow.school mergedB ∈ envAB.map Prod.fst ∧
    MergedRow.school mergedB ∈ growthBC.map Prod.fst := by
  have hm : merge envAB growthBC = [mergedB] := rfl
  have h := c3_merge_inner_join.1 envAB growthBC mergedB (by rw [hm]; exact List.mem_singleton_self _)
  exact ⟨hm, h⟩

/-- C2: on any dataset with a nonempty merged table, the Optimum
Extractor produces exactly four optimal-condition rows, one per
environmental variable; each reported value occurs in the merged data
and each reported mean is the arithmetic mean of the winning group. -/
theorem c2_four_optimal_rows (env : List (String × List EnvRow)) (growth : List (String × List GrowthRow))
    (h : merge env growth ≠ []) :
    (optimal_condition_table (merge env growth)).length = 4 ∧
    ∀ nv ∈ ENV_VARIABLES, ∃ v m,
      optimal_condition_row nv.2 (merge env growth) = some (v, m) ∧
      v ∈ (merge env growth).map nv.2 ∧
      m = mean ((((merge env growth).map (fun r => (nv.2 r, r.freshWeight))).filter
        (fun q => q.1 = v)).map Prod.snd) := by
  constructor
  · rfl
  · intro nv hnv
    have hrows : (merge env growth).map (fun r => (nv.2 r, r.freshWeight)) ≠ [] := by
      intro hc
      exact h (List.map_eq_nil_iff.mp hc)
    have hg := groupbyMeanFO_ne_nil _ hrows
    unfold optimal_condition_row
    match hp : argmax (groupbyMeanFO ((merge env growth).map (fun r => (nv.2 r, r.freshWeight)))) with
    | none => exact absurd ((argmax_eq_none _).mp hp) hg
    | some p =>
      have hmem := argmax_mem _ p hp
      obtain ⟨hkey, hval⟩ := mem_groupbyMeanFO _ p hmem
      refine ⟨p.1, p.2, rfl, ?_, hval⟩
      have hmm : ((merge env growth).map (fun r => (nv.2 r, r.freshWeight))).map Prod.fst =
          (merge env growth).map nv.2 := by
        rw [List.map_map]
        rfl
      rw [← hmm]
      exact hkey

theorem c2_witness :
    merge envS1 growthS1 ≠ [] ∧
    ((optimal_condition_table (merge envS1 growthS1)).length = 4 ∧
      ∀ nv ∈ ENV_VARIABLES, ∃ v m,
        optimal_condition_row nv.2 (merge envS1 growthS1) = some (v, m) ∧
        v ∈ (merge envS1 growthS1).map nv.2 ∧
        m = mean ((((merge envS1 growthS1).map (fun r => (nv.2 r, r.freshWeight))).filter
          (fun q => q.1 = v)).map Prod.snd)) := by
  have h : merge envS1 growthS1 ≠ [] := by decide
  exact ⟨h, c2_four_optimal_rows envS1 growthS1 h⟩

end PolarPlant
